import Mathlib

/-!
Shallow embedding of the TouchGrass contract suite (TouchGrassCore,
TouchGrassNFT, TouchGrassPaymaster) from the repository's Solidity sources.

Modelling conventions:
  * `Address` is `Nat`; `0` is the zero address.
  * Solidity mappings are Lean functions with a default-zero initial value,
    updated through `upd` / `upd2`.
  * `block.timestamp` is an explicit `now : Nat` argument to every call.
  * A reverting call is `Except.error msg` carrying the `require` message;
    a successful call returns the complete post-state, which models
    Solidity's atomic commit-or-revert semantics.
  * Solidity `int256` division truncates toward zero, which is `Int.tdiv`.
  * `uint256` quantities are `Nat`.  The only place a wrap/overflow check is
    observable on the claims is the `_gasUsed * _gasPrice` product in
    `sponsorGas` (Solidity 0.8 reverts on overflow); it is modelled by an
    explicit `2 ^ 256` bound.  The geofence arithmetic cannot overflow
    `int256` for the coordinate magnitudes the claims quantify over
    (|lat|, |lng| ≤ 180e6 and `int128` centers), so it is embedded over `Int`.
-/

abbrev Address := Nat

/-- Pointwise update of a one-key mapping. -/
def upd {β : Type} (m : Nat → β) (k : Nat) (v : β) : Nat → β :=
  fun x => if x = k then v else m x

/-- Pointwise update of a two-key mapping. -/
def upd2 {β : Type} (m : Nat → Nat → β) (a b : Nat) (v : β) : Nat → Nat → β :=
  upd m a (upd (m a) b v)

namespace TouchGrassCore

/-- struct FriendshipAttestation (src/unnamed/part_002, lines 46-51). -/
structure FriendshipAttestation where
  friend : Address
  attestedAt : Nat
  isMutual : Bool
  interactionCount : Nat
deriving DecidableEq, Repr

/-- The all-zero record a Solidity mapping returns for an unset key,
and that `delete` resets an entry to. -/
def FriendshipAttestation.zero : FriendshipAttestation :=
  { friend := 0, attestedAt := 0, isMutual := false, interactionCount := 0 }

/-- struct GrassEvent (src/unnamed/part_002, lines 22-35). -/
structure GrassEvent where
  id : Nat
  creator : Address
  scheduledTime : Nat
  createdAt : Nat
  centerLat : Int
  centerLng : Int
  radiusMeters : Nat
  isActive : Bool
  name : String
  location : String
  ipfsHash : String
  invitedFriends : List Address
deriving DecidableEq, Repr

def GrassEvent.zero : GrassEvent :=
  { id := 0, creator := 0, scheduledTime := 0, createdAt := 0, centerLat := 0,
    centerLng := 0, radiusMeters := 0, isActive := false, name := "",
    location := "", ipfsHash := "", invitedFriends := [] }

/-- struct LocationProof (src/unnamed/part_002, lines 37-44); the unused
`signature` bytes field is dropped (it is always stored as `""`). -/
structure LocationProof where
  user : Address
  eventId : Nat
  lat : Int
  lng : Int
  timestamp : Nat
deriving DecidableEq, Repr

def LocationProof.zero : LocationProof :=
  { user := 0, eventId := 0, lat := 0, lng := 0, timestamp := 0 }

/-- struct UserProfile (src/unnamed/part_002, lines 53-58); the unused
`deviceFingerprint` field is dropped. -/
structure UserProfile where
  eventsAttended : Nat
  eventsCreated : Nat
  isVerified : Bool
deriving DecidableEq, Repr

def UserProfile.zero : UserProfile :=
  { eventsAttended := 0, eventsCreated := 0, isVerified := false }

/-- Storage of TouchGrassCore (src/unnamed/part_002, lines 60-82).
`nftContractSet` models whether `nftContract` holds a non-zero address. -/
structure CoreState where
  eventIds : Nat
  events : Nat → GrassEvent
  friendships : Address → Address → FriendshipAttestation
  locationProofs : Nat → Address → LocationProof
  eventAttendees : Nat → List Address
  userEvents : Address → List Nat
  userProfiles : Address → UserProfile
  hasAttended : Nat → Address → Bool
  lastActionTime : Address → Nat
  nftContractSet : Bool

def ACTION_COOLDOWN : Nat := 60
def MAX_FRIENDS_PER_EVENT : Nat := 6
def MIN_FRIENDS_PER_EVENT : Nat := 1

/-- The state right after deployment and `setNFTContract` wiring
(`scripts/deploy.js` wires core and NFT right after deployment). -/
def coreInit : CoreState :=
  { eventIds := 0
    events := fun _ => GrassEvent.zero
    friendships := fun _ _ => FriendshipAttestation.zero
    locationProofs := fun _ _ => LocationProof.zero
    eventAttendees := fun _ => []
    userEvents := fun _ => []
    userProfiles := fun _ => UserProfile.zero
    hasAttended := fun _ _ => false
    lastActionTime := fun _ => 0
    nftContractSet := true }

/-- The `rateLimited` modifier's guard (src/unnamed/part_002, lines 91-98):
the call passes when `block.timestamp >= lastActionTime[msg.sender] +
ACTION_COOLDOWN`; the modifier then writes `lastActionTime[msg.sender] =
block.timestamp` (the write is folded into each operation's post-state). -/
def rateOk (s : CoreState) (sender : Address) (now : Nat) : Prop :=
  s.lastActionTime sender + ACTION_COOLDOWN ≤ now

instance (s : CoreState) (sender : Address) (now : Nat) :
    Decidable (rateOk s sender now) := by
  unfold rateOk; infer_instance

/-- function attestFriend (src/unnamed/part_002, lines 121-142). -/
def attestFriend (s : CoreState) (sender friend : Address) (now : Nat) :
    Except String CoreState :=
  if ¬ rateOk s sender now then .error "Action rate limited"
  else if friend = sender then .error "Cannot attest to yourself"
  else if friend = 0 then .error "Invalid friend address"
  else
    let isMutual : Bool := decide ((s.friendships friend sender).friend = sender)
    let fs1 := upd2 s.friendships sender friend
      { friend := friend, attestedAt := now, isMutual := isMutual,
        interactionCount := 0 }
    let fs2 := if isMutual then
        upd2 fs1 friend sender { fs1 friend sender with isMutual := true }
      else fs1
    .ok { s with friendships := fs2,
                 lastActionTime := upd s.lastActionTime sender now }

/-- function batchAttestFriends (src/unnamed/part_002, lines 147-151): a loop
calling the public `attestFriend` on each element; every iteration re-runs
`attestFriend`'s modifiers at the same `block.timestamp`, and any revert
aborts the whole call. -/
def batchAttestFriends (s : CoreState) (sender : Address) :
    List Address → Nat → Except String CoreState
  | [], _ => .ok s
  | f :: rest, now =>
    match attestFriend s sender f now with
    | .error e => .error e
    | .ok s1 => batchAttestFriends s1 sender rest now

/-- function createEvent (src/unnamed/part_002, lines 156-202).
Returns the post-state and the new event id. -/
def createEvent (s : CoreState) (sender : Address) (name location : String)
    (scheduledTime : Nat) (centerLat centerLng : Int) (radiusMeters : Nat)
    (invitedFriends : List Address) (now : Nat) :
    Except String (CoreState × Nat) :=
  if ¬ rateOk s sender now then .error "Action rate limited"
  else if name = "" then .error "Event name required"
  else if scheduledTime ≤ now + 3600 then
    .error "Event must be at least 1 hour in future"
  else if invitedFriends.length < MIN_FRIENDS_PER_EVENT then
    .error "Need at least 1 friend"
  else if MAX_FRIENDS_PER_EVENT < invitedFriends.length then
    .error "Too many friends"
  else if radiusMeters = 0 ∨ 1000 < radiusMeters then .error "Invalid radius"
  else if ¬ (∀ f ∈ invitedFriends, (s.friendships sender f).isMutual = true) then
    .error "All friends must be mutually attested"
  else
    let eventId := s.eventIds + 1
    .ok ({ s with
      eventIds := eventId
      events := upd s.events eventId
        { id := eventId, creator := sender, scheduledTime := scheduledTime,
          createdAt := now, centerLat := centerLat, centerLng := centerLng,
          radiusMeters := radiusMeters, isActive := true, name := name,
          location := location, ipfsHash := "",
          invitedFriends := invitedFriends }
      userEvents := upd s.userEvents sender (s.userEvents sender ++ [eventId])
      userProfiles := upd s.userProfiles sender
        { s.userProfiles sender with
            eventsCreated := (s.userProfiles sender).eventsCreated + 1 }
      lastActionTime := upd s.lastActionTime sender now }, eventId)

/-- function _isWithinGeofence (src/unnamed/part_002, lines 337-352):
planar approximation, 1 degree ≈ 111000 m, compared against the squared
radius; Solidity `/` on `int256` truncates toward zero (`Int.tdiv`). -/
def isWithinGeofence (lat lng : Int) (ev : GrassEvent) : Bool :=
  let latDiff := lat - ev.centerLat
  let lngDiff := lng - ev.centerLng
  let latMeters := Int.tdiv (latDiff * 111000) 1000000
  let lngMeters := Int.tdiv (lngDiff * 111000) 1000000
  decide (latMeters * latMeters + lngMeters * lngMeters ≤
    (ev.radiusMeters : Int) * (ev.radiusMeters : Int))

/-- function verifyLocationSimple (src/unnamed/part_002, lines 207-246). -/
def verifyLocationSimple (s : CoreState) (sender : Address) (eventId : Nat)
    (lat lng : Int) (now : Nat) : Except String CoreState :=
  if ¬ rateOk s sender now then .error "Action rate limited"
  else
    let ev := s.events eventId
    if ev.isActive = false then .error "Event not active"
    else if s.hasAttended eventId sender then .error "Already verified location"
    else if ¬ (sender = ev.creator ∨ sender ∈ ev.invitedFriends) then
      .error "Not authorized"
    else if isWithinGeofence lat lng ev = false then .error "Outside geofence"
    else
      .ok { s with
        locationProofs := upd2 s.locationProofs eventId sender
          { user := sender, eventId := eventId, lat := lat, lng := lng,
            timestamp := now }
        hasAttended := upd2 s.hasAttended eventId sender true
        eventAttendees := upd s.eventAttendees eventId
          (s.eventAttendees eventId ++ [sender])
        userProfiles := upd s.userProfiles sender
          { s.userProfiles sender with
              eventsAttended := (s.userProfiles sender).eventsAttended + 1 }
        lastActionTime := upd s.lastActionTime sender now }

/-- function finalizeMemory (src/unnamed/part_002, lines 253-260). -/
def finalizeMemory (s : CoreState) (sender : Address) (eventId : Nat)
    (ipfsHash : String) : Except String CoreState :=
  if ¬ (sender = (s.events eventId).creator) then
    .error "Only creator can finalize"
  else if ipfsHash = "" then .error "IPFS hash required"
  else if (s.eventAttendees eventId).length < 2 then
    .error "Need at least 2 attendees"
  else
    .ok { s with
      events := upd s.events eventId
        ({ s.events eventId with ipfsHash := ipfsHash }) }

/-- function getFriendshipLevel (src/unnamed/part_002, lines 296-307):
0 when not mutual, otherwise a 1-5 level from the interaction count. -/
def getFriendshipLevel (s : CoreState) (user friend : Address) : Nat :=
  if (s.friendships user friend).isMutual = false then 0
  else
    let interactions := (s.friendships user friend).interactionCount
    if interactions = 0 then 1
    else if interactions < 3 then 2
    else if interactions < 7 then 3
    else if interactions < 15 then 4
    else 5

/-- The interaction-count loop of the core's mintMemoryNFT
(src/unnamed/part_002, lines 281-287): for every attendee other than the
minter that the minter's record marks mutual, both directions'
`interactionCount` is incremented, sequentially over the attendee list. -/
def bumpInteractions (sender : Address) :
    List Address → (Address → Address → FriendshipAttestation) →
    (Address → Address → FriendshipAttestation)
  | [], fs => fs
  | a :: rest, fs =>
    let fs2 :=
      if a ≠ sender ∧ (fs sender a).isMutual = true then
        let fs1 := upd2 fs sender a
          { fs sender a with
              interactionCount := (fs sender a).interactionCount + 1 }
        upd2 fs1 a sender
          { fs1 a sender with
              interactionCount := (fs1 a sender).interactionCount + 1 }
      else fs
    bumpInteractions sender rest fs2

/-- function cancelEvent (src/unnamed/part_002, lines 357-360). -/
def cancelEvent (s : CoreState) (sender : Address) (eventId : Nat) :
    Except String CoreState :=
  if ¬ ((s.events eventId).creator = sender) then
    .error "Only creator can cancel"
  else
    .ok { s with
      events := upd s.events eventId
        ({ s.events eventId with isActive := false }) }

/-- function removeFriend (src/unnamed/part_002, lines 365-368):
unconditionally deletes the caller's side of the friendship record; the
reverse record is untouched (the source comments this explicitly). -/
def removeFriend (s : CoreState) (sender friend : Address) : CoreState :=
  { s with
    friendships := upd2 s.friendships sender friend FriendshipAttestation.zero }

end TouchGrassCore

namespace TouchGrassNFT

open TouchGrassCore

/-- struct MemoryNFT (contracts/TouchGrassNFT.sol, lines 23-30). -/
structure MemoryNFT where
  eventId : Nat
  crewMembers : List Address
  mintedAt : Nat
  baseIPFSHash : String
  friendshipLevel : Nat
  isPublic : Bool
deriving DecidableEq, Repr

def MemoryNFT.zero : MemoryNFT :=
  { eventId := 0, crewMembers := [], mintedAt := 0, baseIPFSHash := "",
    friendshipLevel := 0, isPublic := false }

/-- Storage of TouchGrassNFT (contracts/TouchGrassNFT.sol, lines 32-38)
together with the inherited ERC721 ownership mapping: `owners tokenId` is the
token's owner, `0` meaning the token does not exist. -/
structure NFTState where
  tokenIds : Nat
  memoryNFTs : Nat → MemoryNFT
  eventToUserToken : Nat → Address → Nat
  owners : Nat → Address
  tokenURIs : Nat → String
  baseMetadataURI : String

def nftInit : NFTState :=
  { tokenIds := 0
    memoryNFTs := fun _ => MemoryNFT.zero
    eventToUserToken := fun _ _ => 0
    owners := fun _ => 0
    tokenURIs := fun _ => ""
    baseMetadataURI := "https://api.touchgrass.app/metadata/" }

/-- function _calculateFriendshipLevel (contracts/TouchGrassNFT.sol, lines
187-202): sums `coreContract.getFriendshipLevel` over crew members other
than the user that have a positive level, then divides by their count,
defaulting to 1 when there is none. -/
def calculateFriendshipLevel (core : CoreState) (user : Address)
    (crewMembers : List Address) : Nat :=
  let acc := crewMembers.foldl
    (fun (p : Nat × Nat) m =>
      if m ≠ user then
        let level := getFriendshipLevel core user m
        if 0 < level then (p.1 + level, p.2 + 1) else p
      else p)
    (0, 0)
  if 0 < acc.2 then acc.1 / acc.2 else 1

/-- function mintMemoryNFT of the NFT contract (contracts/TouchGrassNFT.sol,
lines 56-90).  The `msg.sender == address(coreContract)` guard is realised at
the suite level: only the core's own mintMemoryNFT reaches this function.
`_safeMint`'s ERC721 checks (non-zero recipient, fresh token id) are
included; the receiver callback is out of scope (externally-owned accounts).
Returns the post-state and the new token id. -/
def mintMemoryNFT (core : CoreState) (n : NFTState) (toAddr : Address)
    (eventId : Nat) (ipfsHash : String) (crewMembers : List Address)
    (now : Nat) : Except String (NFTState × Nat) :=
  if n.eventToUserToken eventId toAddr ≠ 0 then
    .error "User already has NFT for this event"
  else
    let tokenId := n.tokenIds + 1
    if toAddr = 0 then .error "ERC721: mint to the zero address"
    else if n.owners tokenId ≠ 0 then .error "ERC721: token already minted"
    else
      let friendshipLevel := calculateFriendshipLevel core toAddr crewMembers
      .ok ({ n with
        tokenIds := tokenId
        owners := upd n.owners tokenId toAddr
        memoryNFTs := upd n.memoryNFTs tokenId
          { eventId := eventId, crewMembers := crewMembers, mintedAt := now,
            baseIPFSHash := ipfsHash, friendshipLevel := friendshipLevel,
            isPublic := false }
        eventToUserToken := upd2 n.eventToUserToken eventId toAddr tokenId
        tokenURIs := upd n.tokenURIs tokenId
          (n.baseMetadataURI ++ Nat.repr tokenId) }, tokenId)

/-- Inherited ERC721 transferFrom: moves a token between owners.  Approvals
are not modelled; only the owner itself may transfer here, which is a subset
of the transfers ERC721 allows (every transition here is a real one). -/
def transferFrom (n : NFTState) (caller fromAddr toAddr : Address)
    (tokenId : Nat) : Except String NFTState :=
  if n.owners tokenId = 0 then .error "ERC721: invalid token ID"
  else if ¬ (n.owners tokenId = fromAddr) then
    .error "ERC721: transfer from incorrect owner"
  else if ¬ (caller = fromAddr) then
    .error "ERC721: caller is not token owner or approved"
  else if toAddr = 0 then .error "ERC721: transfer to the zero address"
  else .ok { n with owners := upd n.owners tokenId toAddr }

/-- function makeMemoryPublic (contracts/TouchGrassNFT.sol, lines 124-127). -/
def makeMemoryPublic (n : NFTState) (sender : Address) (tokenId : Nat) :
    Except String NFTState :=
  if ¬ (n.owners tokenId = sender ∧ n.owners tokenId ≠ 0) then
    .error "Only owner can make public"
  else
    .ok { n with
      memoryNFTs := upd n.memoryNFTs tokenId
        ({ n.memoryNFTs tokenId with isPublic := true }) }

end TouchGrassNFT

namespace TouchGrassCore

open TouchGrassNFT

/-- function mintMemoryNFT of the core (src/unnamed/part_002, lines 265-291):
checks finalization and the caller's location proof, mints through the NFT
contract (whose revert aborts the whole call), then bumps the interaction
counters among attendees.  Returns both post-states and the token id. -/
def coreMintMemoryNFT (s : CoreState) (n : NFTState) (sender : Address)
    (eventId : Nat) (now : Nat) :
    Except String (CoreState × NFTState × Nat) :=
  if s.nftContractSet = false then .error "NFT contract not set"
  else if (s.events eventId).ipfsHash = "" then .error "Memory not finalized"
  else if ¬ ((s.locationProofs eventId sender).user = sender) then
    .error "Location not verified"
  else
    match TouchGrassNFT.mintMemoryNFT s n sender eventId
        (s.events eventId).ipfsHash (s.eventAttendees eventId) now with
    | .error e => .error e
    | .ok (n1, tokenId) =>
      .ok ({ s with
              friendships := bumpInteractions sender (s.eventAttendees eventId)
                s.friendships },
           n1, tokenId)

end TouchGrassCore

namespace TouchGrassPaymaster

/-- Storage of TouchGrassPaymaster (contracts/TouchGrassPaymaster.sol, lines
18-27) plus the contract's own ether balance. -/
structure PayState where
  hasReceivedSponsorship : Address → Bool
  userSponsoredGas : Address → Nat
  sponsorshipBudget : Nat
  maxSponsorshipPerUser : Nat
  totalSponsored : Nat
  balance : Nat
  coreContract : Address
  nftContract : Address

/-- The constructor state (contracts/TouchGrassPaymaster.sol, lines 29-33):
`maxSponsorshipPerUser = 0.001 ether`, `sponsorshipBudget = 1 ether`. -/
def payInit (core nft : Address) : PayState :=
  { hasReceivedSponsorship := fun _ => false
    userSponsoredGas := fun _ => 0
    sponsorshipBudget := 10 ^ 18
    maxSponsorshipPerUser := 10 ^ 15
    totalSponsored := 0
    balance := 0
    coreContract := core
    nftContract := nft }

/-- function isEligibleForSponsorship (contracts/TouchGrassPaymaster.sol,
lines 38-42). -/
def isEligibleForSponsorship (p : PayState) (user : Address) : Bool :=
  !p.hasReceivedSponsorship user &&
    decide (p.userSponsoredGas user < p.maxSponsorshipPerUser) &&
    decide (p.maxSponsorshipPerUser ≤ p.balance)

/-- function sponsorGas (contracts/TouchGrassPaymaster.sol, lines 47-62).
`_gasUsed * _gasPrice` is a `uint256` product: Solidity 0.8 reverts when it
wraps, modelled by the `2 ^ 256` bound. -/
def sponsorGas (p : PayState) (caller user : Address)
    (gasUsed gasPrice : Nat) : Except String PayState :=
  if ¬ (caller = p.coreContract ∨ caller = p.nftContract) then
    .error "Unauthorized"
  else if isEligibleForSponsorship p user = false then
    .error "User not eligible"
  else if 2 ^ 256 ≤ gasUsed * gasPrice then .error "arithmetic overflow"
  else
    let gasRefund := gasUsed * gasPrice
    if p.maxSponsorshipPerUser < gasRefund then .error "Refund exceeds limit"
    else if p.balance < gasRefund then .error "Insufficient balance"
    else
      .ok { p with
        hasReceivedSponsorship := upd p.hasReceivedSponsorship user true
        userSponsoredGas := upd p.userSponsoredGas user
          (p.userSponsoredGas user + gasRefund)
        totalSponsored := p.totalSponsored + gasRefund
        balance := p.balance - gasRefund }

/-- Reachable paymaster states, over the operations that can run while the
owner leaves `maxSponsorshipPerUser` unchanged (the claim's proviso):
`sponsorGas`, funding through `receive`/`addFunds`, and `withdrawFunds`. -/
inductive PayReach (core nft : Address) : PayState → Prop
  | init : PayReach core nft (payInit core nft)
  | sponsor {p p' : PayState} {caller user : Address} {gasUsed gasPrice : Nat} :
      PayReach core nft p → sponsorGas p caller user gasUsed gasPrice = .ok p' →
      PayReach core nft p'
  | deposit {p : PayState} (amount : Nat) : PayReach core nft p →
      PayReach core nft { p with
        sponsorshipBudget := p.sponsorshipBudget + amount
        balance := p.balance + amount }
  | withdraw {p : PayState} (amount : Nat) : PayReach core nft p →
      amount ≤ p.balance →
      PayReach core nft { p with balance := p.balance - amount }

end TouchGrassPaymaster

open TouchGrassCore TouchGrassNFT TouchGrassPaymaster

/-- The deployed suite: core storage, NFT storage, paymaster storage.  The
contract addresses of core and NFT (as the paymaster's authorized callers)
are fixed, distinct from the small user addresses used in examples. -/
structure SuiteState where
  core : CoreState
  nft : NFTState
  pay : PayState

def coreAddr : Address := 1001
def nftAddr : Address := 1002

def suiteInit : SuiteState :=
  { core := coreInit, nft := nftInit, pay := payInit coreAddr nftAddr }

/-- One external call into the suite: the public operations of the three
contracts that move state, each tagged with its `msg.sender`. -/
inductive Call where
  | attestFriend (sender friend : Address)
  | batchAttestFriends (sender : Address) (friends : List Address)
  | createEvent (sender : Address) (name location : String)
      (scheduledTime : Nat) (centerLat centerLng : Int) (radiusMeters : Nat)
      (invitedFriends : List Address)
  | verifyLocationSimple (sender : Address) (eventId : Nat) (lat lng : Int)
  | finalizeMemory (sender : Address) (eventId : Nat) (ipfsHash : String)
  | mintMemoryNFT (sender : Address) (eventId : Nat)
  | cancelEvent (sender : Address) (eventId : Nat)
  | removeFriend (sender friend : Address)
  | transferFrom (caller fromAddr toAddr : Address) (tokenId : Nat)
  | makeMemoryPublic (sender : Address) (tokenId : Nat)
  | sponsorGas (caller user : Address) (gasUsed gasPrice : Nat)

/-- Execute one call at block time `now`: the full post-state on success,
`Except.error` on revert. -/
def stepCall (s : SuiteState) (c : Call) (now : Nat) :
    Except String SuiteState :=
  match c with
  | .attestFriend sender friend =>
    match TouchGrassCore.attestFriend s.core sender friend now with
    | .error e => .error e
    | .ok c1 => .ok { s with core := c1 }
  | .batchAttestFriends sender friends =>
    match TouchGrassCore.batchAttestFriends s.core sender friends now with
    | .error e => .error e
    | .ok c1 => .ok { s with core := c1 }
  | .createEvent sender name location scheduledTime centerLat centerLng
      radiusMeters invitedFriends =>
    match TouchGrassCore.createEvent s.core sender name location scheduledTime
        centerLat centerLng radiusMeters invitedFriends now with
    | .error e => .error e
    | .ok (c1, _) => .ok { s with core := c1 }
  | .verifyLocationSimple sender eventId lat lng =>
    match TouchGrassCore.verifyLocationSimple s.core sender eventId lat lng now with
    | .error e => .error e
    | .ok c1 => .ok { s with core := c1 }
  | .finalizeMemory sender eventId ipfsHash =>
    match TouchGrassCore.finalizeMemory s.core sender eventId ipfsHash with
    | .error e => .error e
    | .ok c1 => .ok { s with core := c1 }
  | .mintMemoryNFT sender eventId =>
    match TouchGrassCore.coreMintMemoryNFT s.core s.nft sender eventId now with
    | .error e => .error e
    | .ok (c1, n1, _) => .ok { s with core := c1, nft := n1 }
  | .cancelEvent sender eventId =>
    match TouchGrassCore.cancelEvent s.core sender eventId with
    | .error e => .error e
    | .ok c1 => .ok { s with core := c1 }
  | .removeFriend sender friend =>
    .ok { s with core := TouchGrassCore.removeFriend s.core sender friend }
  | .transferFrom caller fromAddr toAddr tokenId =>
    match TouchGrassNFT.transferFrom s.nft caller fromAddr toAddr tokenId with
    | .error e => .error e
    | .ok n1 => .ok { s with nft := n1 }
  | .makeMemoryPublic sender tokenId =>
    match TouchGrassNFT.makeMemoryPublic s.nft sender tokenId with
    | .error e => .error e
    | .ok n1 => .ok { s with nft := n1 }
  | .sponsorGas caller user gasUsed gasPrice =>
    match TouchGrassPaymaster.sponsorGas s.pay caller user gasUsed gasPrice with
    | .error e => .error e
    | .ok p1 => .ok { s with pay := p1 }

/-- The observable state after a call under Solidity's revert semantics: the
post-state on success, the untouched pre-state on revert. -/
def execCall (s : SuiteState) (c : Call) (now : Nat) : SuiteState :=
  match stepCall s c now with
  | .ok s1 => s1
  | .error _ => s

/-- Multi-step execution with nondecreasing block times: `StepsFrom s t s2 t2`
means a sequence of successful calls leads from `s` (no earlier than time `t`)
to `s2`, the last call at time `t2`.  Reverted calls leave the state
unchanged, so they need no constructor. -/
inductive StepsFrom : SuiteState → Nat → SuiteState → Nat → Prop
  | refl (s : SuiteState) (t : Nat) : StepsFrom s t s t
  | step {s : SuiteState} {t : Nat} {s1 : SuiteState} {t1 : Nat} {c : Call}
      {t2 : Nat} {s2 : SuiteState} : StepsFrom s t s1 t1 → t1 ≤ t2 →
      stepCall s1 c t2 = .ok s2 → StepsFrom s t s2 t2

/-- A suite state reachable from deployment, together with the time of the
last call. -/
def SuiteReach (s : SuiteState) (t : Nat) : Prop :=
  StepsFrom suiteInit 0 s t

namespace TouchGrassCore

/-- A state in which caller 1 is mutually attested with friend 5 but acted at
time 100, and the clock still reads 100: every argument-level condition of
createEvent holds, yet the call is rate limited. -/
def c1State : CoreState := { coreInit with
  friendships := upd2 coreInit.friendships 1 5
    { friend := 5, attestedAt := 50, isMutual := true, interactionCount := 0 }
  lastActionTime := upd coreInit.lastActionTime 1 100 }

/-- The claim's formula for the geofence test, written from the spec's words:
planar degrees-to-meters conversion squared against the squared radius, in
exact integer arithmetic with truncating division. -/
def geofenceSpec (lat lng centerLat centerLng : Int) (radiusMeters : Nat) : Prop :=
  Int.tdiv ((lat - centerLat) * 111000) 1000000 *
      Int.tdiv ((lat - centerLat) * 111000) 1000000 +
    Int.tdiv ((lng - centerLng) * 111000) 1000000 *
      Int.tdiv ((lng - centerLng) * 111000) 1000000 ≤
  (radiusMeters : Int) * (radiusMeters : Int)

/-- The property C3 asserts at one event and coordinate pair: the code's
geofence test agrees with the spec formula, and verifyLocationSimple
(when its other guards pass) succeeds exactly on the formula. -/
def GeofenceClaim (s : CoreState) (sender : Address) (eventId : Nat)
    (lat lng : Int) (now : Nat) : Prop :=
  (isWithinGeofence lat lng (s.events eventId) = true ↔
    geofenceSpec lat lng (s.events eventId).centerLat
      (s.events eventId).centerLng (s.events eventId).radiusMeters) ∧
  (rateOk s sender now → (s.events eventId).isActive = true →
    s.hasAttended eventId sender = false →
    (sender = (s.events eventId).creator ∨
      sender ∈ (s.events eventId).invitedFriends) →
    ((verifyLocationSimple s sender eventId lat lng now).isOk = true ↔
      geofenceSpec lat lng (s.events eventId).centerLat
        (s.events eventId).centerLng (s.events eventId).radiusMeters))

/-- A state with one active event, for the geofence witness. -/
def c3State : CoreState := { coreInit with
  events := upd coreInit.events 1
    { id := 1, creator := 7, scheduledTime := 20000, createdAt := 100,
      centerLat := 1000, centerLng := 2000, radiusMeters := 50,
      isActive := true, name := "picnic", location := "park", ipfsHash := "",
      invitedFriends := [8] } }

end TouchGrassCore

/-- The sender of a call guarded by the `rateLimited` modifier
(attestFriend, createEvent, verifyLocationSimple), `none` otherwise. -/
def Call.rlSender : Call → Option Address
  | .attestFriend sender _ => some sender
  | .createEvent sender _ _ _ _ _ _ _ => some sender
  | .verifyLocationSimple sender _ _ _ => some sender
  | _ => none

namespace TouchGrassCore

/-- The claim's reference semantics, written from the spec's words: calling
attestFriend on each element of the list in order within the same
transaction (same block timestamp, all-or-nothing). -/
def attestFriendSeq (s : CoreState) (sender : Address) (friends : List Address)
    (now : Nat) : Except String CoreState :=
  friends.foldlM (fun st f => attestFriend st sender f now) s

end TouchGrassCore

namespace TouchGrassCore

/-- The claim's formula, written from the spec's words: the average (integer
division) of the recipient's interaction counts with the other crew
members. -/
def avgInteractionCountSpec (s : CoreState) (u : Address)
    (crew : List Address) : Nat :=
  let others := crew.filter (fun m => decide (m ≠ u))
  if others.length = 0 then 0
  else (others.map (fun m => (s.friendships u m).interactionCount)).sum /
    others.length

/-- What the code actually averages: the 1-5 friendship levels
(getFriendshipLevel, derived from interaction counts) of the crew members
other than the user that have a positive level, defaulting to 1 when there
is none. -/
def levelAvgSpec (s : CoreState) (u : Address) (crew : List Address) : Nat :=
  let ls := ((crew.filter (fun m => decide (m ≠ u))).map
    (getFriendshipLevel s u)).filter (fun l => decide (0 < l))
  if 0 < ls.length then ls.sum / ls.length else 1

/-- A state where users 1 and 2 are mutual friends with 10 recorded
interactions each way. -/
def c8State : CoreState := { coreInit with
  friendships := upd2 (upd2 coreInit.friendships 1 2
      { friend := 2, attestedAt := 10, isMutual := true,
        interactionCount := 10 }) 2 1
    { friend := 1, attestedAt := 10, isMutual := true,
      interactionCount := 10 } }

end TouchGrassCore

/-- Deployment state followed by the nine successful calls of the C4
scenario: users 1 and 2 attest each other, user 1 creates event 1 inviting
user 2, both verify their location at the event center, the creator
finalizes the memory, both mint their memory NFT for event 1, and user 2
then transfers their token to user 1. -/
def c4s1 : SuiteState := execCall suiteInit (.attestFriend 1 2) 1000
def c4s2 : SuiteState := execCall c4s1 (.attestFriend 2 1) 1000
def c4s3 : SuiteState :=
  execCall c4s2 (.createEvent 1 "party" "park" 10000 0 0 100 [2]) 1100
def c4s4 : SuiteState := execCall c4s3 (.verifyLocationSimple 1 1 0 0) 1200
def c4s5 : SuiteState := execCall c4s4 (.verifyLocationSimple 2 1 0 0) 1300
def c4s6 : SuiteState := execCall c4s5 (.finalizeMemory 1 1 "ipfs-memory") 1300
def c4s7 : SuiteState := execCall c4s6 (.mintMemoryNFT 1 1) 1400
def c4s8 : SuiteState := execCall c4s7 (.mintMemoryNFT 2 1) 1400
def c4s9 : SuiteState := execCall c4s8 (.transferFrom 2 2 1 2) 1500

/-! ## Properties -/

theorem upd_same {β : Type} (m : Nat → β) (k : Nat) (v : β) : upd m k v k = v := by
  simp [upd]

theorem upd_other {β : Type} (m : Nat → β) (k x : Nat) (v : β) (h : x ≠ k) :
    upd m k v x = m x := by
  simp [upd, h]

theorem upd2_same {β : Type} (m : Nat → Nat → β) (a b : Nat) (v : β) :
    upd2 m a b v a b = v := by
  simp [upd2, upd]

theorem upd2_other {β : Type} (m : Nat → Nat → β) (a b x y : Nat) (v : β)
    (h : ¬(x = a ∧ y = b)) : upd2 m a b v x y = m x y := by
  unfold upd2 upd
  by_cases hx : x = a
  · subst hx
    have hy : y ≠ b := fun hy => h ⟨rfl, hy⟩
    simp [hy]
  · simp [hx]


namespace TouchGrassCore

/-- C2: after a successful attestFriend of `friend` by `sender`, the record
friendships[sender][friend] equals {friend, attestedAt := now, isMutual := b,
interactionCount := 0}, where `b` holds exactly when
friendships[friend][sender].friend = sender held before the call; when `b`
holds the reverse record's isMutual is also set to true (its other fields
kept), otherwise the reverse record is untouched; either way the reverse
record's interactionCount is unchanged, while the caller's own side is reset
to 0 (so a repeated attestation resets it). -/
theorem c2_attestFriend_mutuality (s : CoreState) (sender friend : Address)
    (now : Nat) :
    ((∃ s1, attestFriend s sender friend now = .ok s1) ↔
      (rateOk s sender now ∧ friend ≠ sender ∧ friend ≠ 0)) ∧
    (∀ s1, attestFriend s sender friend now = .ok s1 →
      s1.friendships sender friend =
        { friend := friend, attestedAt := now,
          isMutual := decide ((s.friendships friend sender).friend = sender),
          interactionCount := 0 } ∧
      ((s.friendships friend sender).friend = sender →
        s1.friendships friend sender =
          { s.friendships friend sender with isMutual := true }) ∧
      ((s.friendships friend sender).friend ≠ sender →
        s1.friendships friend sender = s.friendships friend sender) ∧
      (s1.friendships friend sender).interactionCount =
        (s.friendships friend sender).interactionCount) := by
  by_cases h1 : rateOk s sender now
  case neg => simp [attestFriend, h1]
  by_cases h2 : friend = sender
  case pos => subst h2; simp [attestFriend, h1]
  by_cases h3 : friend = 0
  case pos => subst h3; simp [attestFriend, h1, h2]
  have hred : attestFriend s sender friend now = .ok { s with
      friendships :=
        (if ((s.friendships friend sender).friend = sender) then
          upd2 (upd2 s.friendships sender friend
              { friend := friend, attestedAt := now,
                isMutual := decide ((s.friendships friend sender).friend = sender),
                interactionCount := 0 }) friend sender
            { (upd2 s.friendships sender friend
                { friend := friend, attestedAt := now,
                  isMutual := decide ((s.friendships friend sender).friend = sender),
                  interactionCount := 0 }) friend sender with isMutual := true }
        else
          upd2 s.friendships sender friend
            { friend := friend, attestedAt := now,
              isMutual := decide ((s.friendships friend sender).friend = sender),
              interactionCount := 0 })
      lastActionTime := upd s.lastActionTime sender now } := by
    simp only [attestFriend, if_neg (not_not_intro h1), if_neg h2, if_neg h3]
    by_cases hm : (s.friendships friend sender).friend = sender <;>
      simp [hm]
  have hsf : ¬ (sender = friend ∧ friend = sender) := by
    intro hp; exact h2 hp.1.symm
  have hfs : ¬ (friend = sender ∧ sender = friend) := by
    intro hp; exact h2 hp.1
  constructor
  · exact ⟨fun _ => ⟨h1, h2, h3⟩, fun _ => ⟨_, hred⟩⟩
  · intro s1 h
    rw [hred] at h
    injection h with h
    subst h
    by_cases hm : (s.friendships friend sender).friend = sender
    · simp only [if_pos hm]
      refine ⟨?_, ?_, ?_, ?_⟩
      · rw [upd2_other _ _ _ _ _ _ hsf, upd2_same]
      · intro _
        rw [upd2_same, upd2_other _ _ _ _ _ _ hfs]
      · intro hc; exact absurd hm hc
      · rw [upd2_same, upd2_other _ _ _ _ _ _ hfs]
    · simp only [if_neg hm]
      refine ⟨?_, ?_, ?_, ?_⟩
      · rw [upd2_same]
      · intro hc; exact absurd hc hm
      · intro _
        rw [upd2_other _ _ _ _ _ _ hfs]
      · rw [upd2_other _ _ _ _ _ _ hfs]

/-- createEvent succeeds exactly when the rate-limit cooldown has elapsed and
every argument-level condition holds. -/
lemma createEvent_ok_iff (s : CoreState) (sender : Address)
    (name location : String) (scheduledTime : Nat) (centerLat centerLng : Int)
    (radiusMeters : Nat) (invitedFriends : List Address) (now : Nat) :
    (∃ r, createEvent s sender name location scheduledTime centerLat centerLng
        radiusMeters invitedFriends now = .ok r) ↔
      (rateOk s sender now ∧ name ≠ "" ∧ now + 3600 < scheduledTime ∧
        1 ≤ invitedFriends.length ∧ invitedFriends.length ≤ 6 ∧
        1 ≤ radiusMeters ∧ radiusMeters ≤ 1000 ∧
        ∀ f ∈ invitedFriends, (s.friendships sender f).isMutual = true) := by
  constructor
  · rintro ⟨r, h⟩
    unfold createEvent at h
    split_ifs at h with h1 h2 h3 h4 h5 h6 h7 <;>
      try exact Except.noConfusion h
    exact ⟨h1, h2, by omega, by unfold MIN_FRIENDS_PER_EVENT at h4; omega,
      by unfold MAX_FRIENDS_PER_EVENT at h5; omega, by omega, by omega, h7⟩
  · rintro ⟨h1, h2, h3, h4, h5, h6, h7, h8⟩
    unfold createEvent
    rw [if_neg (not_not_intro h1), if_neg h2, if_neg (by omega),
      if_neg (by unfold MIN_FRIENDS_PER_EVENT; omega),
      if_neg (by unfold MAX_FRIENDS_PER_EVENT; omega),
      if_neg (by omega), if_neg (not_not_intro h8)]
    exact ⟨_, rfl⟩

/-- A successful createEvent stores the new event under the fresh id
(counter + 1) and bumps the creator's eventsCreated counter. -/
lemma createEvent_post (s : CoreState) (sender : Address)
    (name location : String) (scheduledTime : Nat) (centerLat centerLng : Int)
    (radiusMeters : Nat) (invitedFriends : List Address) (now : Nat)
    (s1 : CoreState) (eventId : Nat)
    (h : createEvent s sender name location scheduledTime centerLat centerLng
        radiusMeters invitedFriends now = .ok (s1, eventId)) :
    eventId = s.eventIds + 1 ∧ s1.eventIds = s.eventIds + 1 ∧
    s1.events eventId =
      { id := eventId, creator := sender, scheduledTime := scheduledTime,
        createdAt := now, centerLat := centerLat, centerLng := centerLng,
        radiusMeters := radiusMeters, isActive := true, name := name,
        location := location, ipfsHash := "",
        invitedFriends := invitedFriends } ∧
    (s1.userProfiles sender).eventsCreated =
      (s.userProfiles sender).eventsCreated + 1 := by
  unfold createEvent at h
  split_ifs at h <;> try exact Except.noConfusion h
  simp only [Except.ok.injEq, Prod.mk.injEq] at h
  obtain ⟨hs1, hid⟩ := h
  subst hid
  subst hs1
  refine ⟨rfl, rfl, ?_, ?_⟩
  · simp [upd]
  · simp [upd]

/-- C1 (amended): createEvent succeeds exactly when the rate-limit cooldown
has elapsed AND the name is non-empty, the scheduled time is more than 1 hour
ahead, the invite list has 1 to 6 entries, the radius is 1 to 1000 meters,
and every invited friend's record with the caller is marked mutual; on
success the event is stored under the fresh id (the incremented counter) with
the caller as creator, the given geofence center and radius and invite list,
and the creator's eventsCreated counter grows by one. -/
theorem c1_createEvent_validation (s : CoreState) (sender : Address)
    (name location : String) (scheduledTime : Nat) (centerLat centerLng : Int)
    (radiusMeters : Nat) (invitedFriends : List Address) (now : Nat) :
    ((∃ r, createEvent s sender name location scheduledTime centerLat centerLng
        radiusMeters invitedFriends now = .ok r) ↔
      (rateOk s sender now ∧ name ≠ "" ∧ now + 3600 < scheduledTime ∧
        1 ≤ invitedFriends.length ∧ invitedFriends.length ≤ 6 ∧
        1 ≤ radiusMeters ∧ radiusMeters ≤ 1000 ∧
        ∀ f ∈ invitedFriends, (s.friendships sender f).isMutual = true)) ∧
    (∀ s1 eventId, createEvent s sender name location scheduledTime centerLat
        centerLng radiusMeters invitedFriends now = .ok (s1, eventId) →
      eventId = s.eventIds + 1 ∧ s1.eventIds = s.eventIds + 1 ∧
      s1.events eventId =
        { id := eventId, creator := sender, scheduledTime := scheduledTime,
          createdAt := now, centerLat := centerLat, centerLng := centerLng,
          radiusMeters := radiusMeters, isActive := true, name := name,
          location := location, ipfsHash := "",
          invitedFriends := invitedFriends } ∧
      (s1.userProfiles sender).eventsCreated =
        (s.userProfiles sender).eventsCreated + 1) :=
  ⟨createEvent_ok_iff s sender name location scheduledTime centerLat centerLng
      radiusMeters invitedFriends now,
    fun s1 eventId h => createEvent_post s sender name location scheduledTime
      centerLat centerLng radiusMeters invitedFriends now s1 eventId h⟩

/-- C1 counterexample to the claim as stated: in c1State every condition the
claim lists holds for this argument list (non-empty name, time far in the
future, one mutually attested invitee, valid radius), yet createEvent
reverts, because the caller is still inside the rate-limit cooldown. -/
theorem c1_counterexample :
    (("party" : String) ≠ "" ∧ 100 + 3600 < (10000 : Nat) ∧
      1 ≤ ([5] : List Address).length ∧ ([5] : List Address).length ≤ 6 ∧
      1 ≤ (100 : Nat) ∧ (100 : Nat) ≤ 1000 ∧
      (∀ f ∈ ([5] : List Address),
        (c1State.friendships 1 f).isMutual = true)) ∧
    createEvent c1State 1 "party" "park" 10000 0 0 100 [5] 100 =
      .error "Action rate limited" :=
  ⟨⟨by decide, by decide, by decide, by decide, by decide, by decide,
    by decide⟩, rfl⟩

/-- C3: for coordinates of magnitude at most 180e6 the geofence test accepts
exactly when ((lat − centerLat)·111000 tdiv 1e6)² + ((lng − centerLng)·111000
tdiv 1e6)² ≤ radius², in exact integer arithmetic with truncating division,
and verifyLocationSimple (when its other guards pass) succeeds exactly on
that formula. -/
theorem c3_geofence_planar (s : CoreState) (sender : Address) (eventId : Nat)
    (lat lng : Int) (now : Nat)
    (hlat : |lat| ≤ 180 * 1000000) (hlng : |lng| ≤ 180 * 1000000) :
    GeofenceClaim s sender eventId lat lng now := by
  have hiff : isWithinGeofence lat lng (s.events eventId) = true ↔
      geofenceSpec lat lng (s.events eventId).centerLat
        (s.events eventId).centerLng (s.events eventId).radiusMeters := by
    simp only [isWithinGeofence, geofenceSpec, decide_eq_true_eq]
  refine ⟨hiff, ?_⟩
  intro hrate hactive hatt hauth
  have hok : (verifyLocationSimple s sender eventId lat lng now).isOk =
      isWithinGeofence lat lng (s.events eventId) := by
    unfold verifyLocationSimple
    rw [if_neg (not_not_intro hrate)]
    have hauth2 : ¬(¬ sender = (s.events eventId).creator ∧
        sender ∉ (s.events eventId).invitedFriends) := by tauto
    rcases Bool.eq_false_or_eq_true (isWithinGeofence lat lng (s.events eventId))
      with hg | hg <;>
      simp [hactive, hatt, hg, if_neg hauth2, Except.isOk, Except.toBool]
  rw [hok]
  exact hiff

/-- C3 witness: the geofence hypotheses and conclusion at a concrete state,
event and coordinate pair. -/
theorem c3_geofence_witness :
    |(1500 : Int)| ≤ 180 * 1000000 ∧ |(2100 : Int)| ≤ 180 * 1000000 ∧
    GeofenceClaim c3State 7 1 1500 2100 500 :=
  ⟨by decide, by decide,
    c3_geofence_planar c3State 7 1 1500 2100 500 (by decide) (by decide)⟩

end TouchGrassCore

namespace TouchGrassCore

/-- C10: removeFriend never reverts, zeroes exactly the caller's side of the
friendship record, and leaves every other friendship entry and every other
state variable unchanged; in particular (for friend ≠ sender) the reverse
record keeps its isMutual flag and interactionCount. -/
theorem c10_removeFriend_frame (s : CoreState) (sender friend : Address) :
    (removeFriend s sender friend).friendships sender friend =
      FriendshipAttestation.zero ∧
    (∀ a b, ¬(a = sender ∧ b = friend) →
      (removeFriend s sender friend).friendships a b = s.friendships a b) ∧
    (friend ≠ sender →
      (removeFriend s sender friend).friendships friend sender =
        s.friendships friend sender) ∧
    (removeFriend s sender friend).eventIds = s.eventIds ∧
    (removeFriend s sender friend).events = s.events ∧
    (removeFriend s sender friend).locationProofs = s.locationProofs ∧
    (removeFriend s sender friend).eventAttendees = s.eventAttendees ∧
    (removeFriend s sender friend).userEvents = s.userEvents ∧
    (removeFriend s sender friend).userProfiles = s.userProfiles ∧
    (removeFriend s sender friend).hasAttended = s.hasAttended ∧
    (removeFriend s sender friend).lastActionTime = s.lastActionTime ∧
    (removeFriend s sender friend).nftContractSet = s.nftContractSet := by
  refine ⟨upd2_same _ _ _ _, fun a b hab => upd2_other _ _ _ _ _ _ hab,
    fun hfs => upd2_other _ _ _ _ _ _ (fun hp => hfs hp.1), rfl, rfl, rfl,
    rfl, rfl, rfl, rfl, rfl, rfl⟩

end TouchGrassCore

namespace TouchGrassCore

lemma attestFriend_rate_post (s : CoreState) (sender friend : Address)
    (now : Nat) (s1 : CoreState)
    (h : attestFriend s sender friend now = .ok s1) :
    rateOk s sender now ∧ s1.lastActionTime = upd s.lastActionTime sender now := by
  unfold attestFriend at h
  split_ifs at h with h1 h2 h3 <;> try exact Except.noConfusion h
  refine ⟨h1, ?_⟩
  injection h with h
  subst h
  rfl

/-- batchAttestFriends is definitionally the left-to-right fold of
attestFriend over the list. -/
lemma batchAttest_eq_seq (sender : Address) (friends : List Address)
    (now : Nat) : ∀ s : CoreState,
    batchAttestFriends s sender friends now =
      attestFriendSeq s sender friends now := by
  induction friends with
  | nil => intro s; rfl
  | cons f rest ih =>
    intro s
    show (match attestFriend s sender f now with
      | .error e => (Except.error e : Except String CoreState)
      | .ok s1 => batchAttestFriends s1 sender rest now) = _
    rcases hf : attestFriend s sender f now with e | s1
    · simp only [attestFriendSeq, List.foldlM_cons, hf]
      rfl
    · simpa [attestFriendSeq, hf] using ih s1

/-- Any batch of two or more addresses reverts: the first successful inner
call stamps lastActionTime with the current block time, so the second inner
call's rate-limit guard (now ≥ now + 60) can never pass. -/
lemma batchAttest_two_reverts (s : CoreState) (sender : Address)
    (a b : Address) (rest : List Address) (now : Nat) :
    (batchAttestFriends s sender (a :: b :: rest) now).isOk = false := by
  show (match attestFriend s sender a now with
    | .error e => (Except.error e : Except String CoreState)
    | .ok s1 => batchAttestFriends s1 sender (b :: rest) now).isOk = false
  rcases hf : attestFriend s sender a now with e | s1
  · rfl
  · have hlast := (attestFriend_rate_post s sender a now s1 hf).2
    have hrate : ¬ rateOk s1 sender now := by
      unfold rateOk ACTION_COOLDOWN
      rw [hlast, upd_same]
      omega
    show (match attestFriend s1 sender b now with
      | .error e => (Except.error e : Except String CoreState)
      | .ok s2 => batchAttestFriends s2 sender rest now).isOk = false
    rw [show attestFriend s1 sender b now = .error "Action rate limited" by
      unfold attestFriend; rw [if_pos hrate]]
    rfl

/-- C6 (amended): batchAttestFriends has exactly the effect of calling
attestFriend on each element in order within the same transaction
(all-or-nothing); but it does not succeed for every list: each inner call
re-runs the rate-limit modifier at the same block timestamp, so every call
with two or more addresses reverts. -/
theorem c6_batchAttest_loop :
    (∀ (s : CoreState) (sender : Address) (friends : List Address) (now : Nat),
      batchAttestFriends s sender friends now =
        attestFriendSeq s sender friends now) ∧
    (∀ (s : CoreState) (sender : Address) (friends : List Address) (now : Nat),
      2 ≤ friends.length →
      (batchAttestFriends s sender friends now).isOk = false) :=
  ⟨fun s sender friends now => batchAttest_eq_seq sender friends now s,
    fun s sender friends now h2 =>
      match friends, h2 with
      | a :: b :: rest, _ => batchAttest_two_reverts s sender a b rest now⟩

/-- C6 counterexample to the claim as stated: from the freshly deployed state
at time 100 each of the two attestFriend calls would individually succeed,
yet batchAttestFriends of the two-element list reverts (the second inner call
is rate limited by the first). -/
theorem c6_counterexample :
    (attestFriend coreInit 1 2 100).isOk = true ∧
    (attestFriend coreInit 1 3 100).isOk = true ∧
    batchAttestFriends coreInit 1 [2, 3] 100 =
      .error "Action rate limited" :=
  ⟨rfl, rfl, rfl⟩

end TouchGrassCore

namespace TouchGrassCore

lemma createEvent_rate_post (s : CoreState) (sender : Address)
    (name location : String) (scheduledTime : Nat) (centerLat centerLng : Int)
    (radiusMeters : Nat) (invitedFriends : List Address) (now : Nat)
    (s1 : CoreState) (eid : Nat)
    (h : createEvent s sender name location scheduledTime centerLat centerLng
        radiusMeters invitedFriends now = .ok (s1, eid)) :
    rateOk s sender now ∧ s1.lastActionTime = upd s.lastActionTime sender now := by
  unfold createEvent at h
  split_ifs at h with h1 <;> try exact Except.noConfusion h
  refine ⟨h1, ?_⟩
  simp only [Except.ok.injEq, Prod.mk.injEq] at h
  obtain ⟨hs1, _⟩ := h
  subst hs1
  rfl

lemma verifyLocation_rate_post (s : CoreState) (sender : Address)
    (eventId : Nat) (lat lng : Int) (now : Nat) (s1 : CoreState)
    (h : verifyLocationSimple s sender eventId lat lng now = .ok s1) :
    rateOk s sender now ∧ s1.lastActionTime = upd s.lastActionTime sender now := by
  simp only [verifyLocationSimple] at h
  split_ifs at h with h1 <;> try exact Except.noConfusion h
  refine ⟨h1, ?_⟩
  injection h with h
  subst h
  rfl

lemma batchAttest_lastAction (sender : Address) (l : List Address) (now : Nat) :
    ∀ s s1 : CoreState, batchAttestFriends s sender l now = .ok s1 →
    ∀ u, s1.lastActionTime u = s.lastActionTime u ∨
      s1.lastActionTime u = now := by
  induction l with
  | nil =>
    intro s s1 h u
    injection h with h
    subst h
    exact Or.inl rfl
  | cons f rest ih =>
    intro s s1 h u
    revert h
    show (match attestFriend s sender f now with
      | .error e => (Except.error e : Except String CoreState)
      | .ok st => batchAttestFriends st sender rest now) = .ok s1 → _
    rcases hf : attestFriend s sender f now with e | st
    · intro h; exact Except.noConfusion h
    · intro h
      have h2 := (attestFriend_rate_post s sender f now st hf).2
      rcases ih st s1 h u with hcase | hcase
      · have hx : s1.lastActionTime u = upd s.lastActionTime sender now u := by
          rw [hcase, h2]
        rw [hx]
        unfold upd
        by_cases hu : u = sender <;> simp [hu]
      · exact Or.inr hcase

lemma finalizeMemory_core_frame (s : CoreState) (sender : Address)
    (eventId : Nat) (ipfs : String) (s1 : CoreState)
    (h : finalizeMemory s sender eventId ipfs = .ok s1) :
    s1.lastActionTime = s.lastActionTime := by
  unfold finalizeMemory at h
  split_ifs at h <;> try exact Except.noConfusion h
  injection h with h
  subst h
  rfl

lemma cancelEvent_core_frame (s : CoreState) (sender : Address)
    (eventId : Nat) (s1 : CoreState)
    (h : cancelEvent s sender eventId = .ok s1) :
    s1.lastActionTime = s.lastActionTime := by
  unfold cancelEvent at h
  split_ifs at h <;> try exact Except.noConfusion h
  injection h with h
  subst h
  rfl

lemma coreMint_core_frame (s : CoreState) (n : TouchGrassNFT.NFTState)
    (sender : Address) (eventId : Nat) (now : Nat) (c1 : CoreState)
    (n1 : TouchGrassNFT.NFTState) (tid : Nat)
    (h : coreMintMemoryNFT s n sender eventId now = .ok (c1, n1, tid)) :
    c1.lastActionTime = s.lastActionTime := by
  unfold coreMintMemoryNFT at h
  split_ifs at h <;> try exact Except.noConfusion h
  revert h
  rcases hm : TouchGrassNFT.mintMemoryNFT s n sender eventId
      (s.events eventId).ipfsHash (s.eventAttendees eventId) now
    with e | r
  · intro h; exact Except.noConfusion h
  · intro h
    obtain ⟨nn, tk⟩ := r
    simp only [Except.ok.injEq, Prod.mk.injEq] at h
    obtain ⟨hc, -, -⟩ := h
    subst hc
    rfl

end TouchGrassCore

open TouchGrassCore in
/-- One successful suite call either leaves a user's lastActionTime alone or
stamps it with the call's block time. -/
lemma step_lastAction (s : SuiteState) (c : Call) (t : Nat) (s1 : SuiteState)
    (h : stepCall s c t = .ok s1) (u : Address) :
    s1.core.lastActionTime u = s.core.lastActionTime u ∨
      s1.core.lastActionTime u = t := by
  cases c with
  | attestFriend sender friend =>
    revert h
    simp only [stepCall]
    rcases hf : TouchGrassCore.attestFriend s.core sender friend t with e | c1
    · intro h; exact Except.noConfusion h
    · intro h
      injection h with h
      subst h
      have h2 := (attestFriend_rate_post _ _ _ _ _ hf).2
      show c1.lastActionTime u = _ ∨ c1.lastActionTime u = _
      rw [h2]
      unfold upd
      by_cases hu : u = sender <;> simp [hu]
  | batchAttestFriends sender friends =>
    revert h
    simp only [stepCall]
    rcases hf : TouchGrassCore.batchAttestFriends s.core sender friends t
      with e | c1
    · intro h; exact Except.noConfusion h
    · intro h
      injection h with h
      subst h
      exact batchAttest_lastAction sender friends t s.core c1 hf u
  | createEvent sender name location scheduledTime centerLat centerLng
      radiusMeters invitedFriends =>
    revert h
    simp only [stepCall]
    rcases hf : TouchGrassCore.createEvent s.core sender name location
        scheduledTime centerLat centerLng radiusMeters invitedFriends t
      with e | r
    · intro h; exact Except.noConfusion h
    · intro h
      obtain ⟨c1, eid⟩ := r
      injection h with h
      subst h
      have h2 := (createEvent_rate_post _ _ _ _ _ _ _ _ _ _ _ _ hf).2
      show c1.lastActionTime u = _ ∨ c1.lastActionTime u = _
      rw [h2]
      unfold upd
      by_cases hu : u = sender <;> simp [hu]
  | verifyLocationSimple sender eventId lat lng =>
    revert h
    simp only [stepCall]
    rcases hf : TouchGrassCore.verifyLocationSimple s.core sender eventId
        lat lng t with e | c1
    · intro h; exact Except.noConfusion h
    · intro h
      injection h with h
      subst h
      have h2 := (verifyLocation_rate_post _ _ _ _ _ _ _ hf).2
      show c1.lastActionTime u = _ ∨ c1.lastActionTime u = _
      rw [h2]
      unfold upd
      by_cases hu : u = sender <;> simp [hu]
  | finalizeMemory sender eventId ipfs =>
    revert h
    simp only [stepCall]
    rcases hf : TouchGrassCore.finalizeMemory s.core sender eventId ipfs
      with e | c1
    · intro h; exact Except.noConfusion h
    · intro h
      injection h with h
      subst h
      exact Or.inl (by rw [finalizeMemory_core_frame _ _ _ _ _ hf])
  | mintMemoryNFT sender eventId =>
    revert h
    simp only [stepCall]
    rcases hf : TouchGrassCore.coreMintMemoryNFT s.core s.nft sender eventId t
      with e | r
    · intro h; exact Except.noConfusion h
    · intro h
      obtain ⟨c1, n1, tid⟩ := r
      injection h with h
      subst h
      exact Or.inl (by rw [coreMint_core_frame _ _ _ _ _ _ _ _ hf])
  | cancelEvent sender eventId =>
    revert h
    simp only [stepCall]
    rcases hf : TouchGrassCore.cancelEvent s.core sender eventId with e | c1
    · intro h; exact Except.noConfusion h
    · intro h
      injection h with h
      subst h
      exact Or.inl (by rw [cancelEvent_core_frame _ _ _ _ hf])
  | removeFriend sender friend =>
    injection h with h
    subst h
    exact Or.inl rfl
  | transferFrom caller fromAddr toAddr tokenId =>
    revert h
    simp only [stepCall]
    rcases hf : TouchGrassNFT.transferFrom s.nft caller fromAddr toAddr tokenId
      with e | n1
    · intro h; exact Except.noConfusion h
    · intro h
      injection h with h
      subst h
      exact Or.inl rfl
  | makeMemoryPublic sender tokenId =>
    revert h
    simp only [stepCall]
    rcases hf : TouchGrassNFT.makeMemoryPublic s.nft sender tokenId with e | n1
    · intro h; exact Except.noConfusion h
    · intro h
      injection h with h
      subst h
      exact Or.inl rfl
  | sponsorGas caller user gasUsed gasPrice =>
    revert h
    simp only [stepCall]
    rcases hf : TouchGrassPaymaster.sponsorGas s.pay caller user gasUsed
        gasPrice with e | p1
    · intro h; exact Except.noConfusion h
    · intro h
      injection h with h
      subst h
      exact Or.inl rfl

open TouchGrassCore in
/-- A successful rate-limited call passed its cooldown check and stamps the
sender's lastActionTime with the block time. -/
lemma step_rl_rate (s : SuiteState) (c : Call) (t : Nat) (u : Address)
    (s1 : SuiteState) (hrl : c.rlSender = some u)
    (h : stepCall s c t = .ok s1) :
    s.core.lastActionTime u + ACTION_COOLDOWN ≤ t ∧
      s1.core.lastActionTime u = t := by
  cases c with
  | attestFriend sender friend =>
    injection hrl with hrl
    subst hrl
    revert h
    simp only [stepCall]
    rcases hf : TouchGrassCore.attestFriend s.core sender friend t with e | c1
    · intro h; exact Except.noConfusion h
    · intro h
      injection h with h
      subst h
      obtain ⟨hr, h2⟩ := attestFriend_rate_post _ _ _ _ _ hf
      exact ⟨hr, by
        show c1.lastActionTime sender = t
        rw [h2]; exact upd_same _ _ _⟩
  | createEvent sender name location scheduledTime centerLat centerLng
      radiusMeters invitedFriends =>
    injection hrl with hrl
    subst hrl
    revert h
    simp only [stepCall]
    rcases hf : TouchGrassCore.createEvent s.core sender name location
        scheduledTime centerLat centerLng radiusMeters invitedFriends t
      with e | r
    · intro h; exact Except.noConfusion h
    · intro h
      obtain ⟨c1, eid⟩ := r
      injection h with h
      subst h
      obtain ⟨hr, h2⟩ := createEvent_rate_post _ _ _ _ _ _ _ _ _ _ _ _ hf
      exact ⟨hr, by
        show c1.lastActionTime sender = t
        rw [h2]; exact upd_same _ _ _⟩
  | verifyLocationSimple sender eventId lat lng =>
    injection hrl with hrl
    subst hrl
    revert h
    simp only [stepCall]
    rcases hf : TouchGrassCore.verifyLocationSimple s.core sender eventId
        lat lng t with e | c1
    · intro h; exact Except.noConfusion h
    · intro h
      injection h with h
      subst h
      obtain ⟨hr, h2⟩ := verifyLocation_rate_post _ _ _ _ _ _ _ hf
      exact ⟨hr, by
        show c1.lastActionTime sender = t
        rw [h2]; exact upd_same _ _ _⟩
  | batchAttestFriends sender friends => exact Option.noConfusion hrl
  | finalizeMemory sender eventId ipfs => exact Option.noConfusion hrl
  | mintMemoryNFT sender eventId => exact Option.noConfusion hrl
  | cancelEvent sender eventId => exact Option.noConfusion hrl
  | removeFriend sender friend => exact Option.noConfusion hrl
  | transferFrom caller fromAddr toAddr tokenId => exact Option.noConfusion hrl
  | makeMemoryPublic sender tokenId => exact Option.noConfusion hrl
  | sponsorGas caller user gasUsed gasPrice => exact Option.noConfusion hrl

lemma stepsFrom_time_mono {s : SuiteState} {t : Nat} {s2 : SuiteState}
    {t2 : Nat} (h : StepsFrom s t s2 t2) : t ≤ t2 := by
  induction h with
  | refl => exact le_refl _
  | step hsteps hle hcall ih => omega

lemma stepsFrom_lastAction_lower {s : SuiteState} {t : Nat} {s2 : SuiteState}
    {t2 : Nat} (h : StepsFrom s t s2 t2) (u : Address) (x : Nat)
    (hx : x ≤ s.core.lastActionTime u) (hxt : x ≤ t) :
    x ≤ s2.core.lastActionTime u := by
  induction h with
  | refl => exact hx
  | step hsteps hle hcall ih =>
    rcases step_lastAction _ _ _ _ hcall u with hc | hc
    · rw [hc]; exact ih
    · rw [hc]
      have := stepsFrom_time_mono hsteps
      omega

open TouchGrassCore in
/-- C5: rate limiting.  (1) A rate-limited call (attestFriend, createEvent,
verifyLocationSimple) made before lastActionTime[sender] + ACTION_COOLDOWN
(60 s) reverts; (2) a successful rate-limited call passed that check and sets
lastActionTime[sender] to the current block time; (3) hence along any
execution with nondecreasing block times, two successful rate-limited
actions of the same user are at least 60 seconds apart. -/
theorem c5_rate_limiting :
    (∀ (s : SuiteState) (c : Call) (t : Nat) (u : Address) (s1 : SuiteState),
      c.rlSender = some u →
      t < s.core.lastActionTime u + ACTION_COOLDOWN →
      stepCall s c t ≠ .ok s1) ∧
    (∀ (s : SuiteState) (c : Call) (t : Nat) (u : Address) (s1 : SuiteState),
      c.rlSender = some u → stepCall s c t = .ok s1 →
      s.core.lastActionTime u + ACTION_COOLDOWN ≤ t ∧
      s1.core.lastActionTime u = t) ∧
    (∀ (u : Address) (c1 c2 : Call) (s s1 s2 s3 : SuiteState) (t1 t2 t3 : Nat),
      c1.rlSender = some u → c2.rlSender = some u →
      stepCall s c1 t1 = .ok s1 → StepsFrom s1 t1 s2 t2 → t2 ≤ t3 →
      stepCall s2 c2 t3 = .ok s3 → t1 + ACTION_COOLDOWN ≤ t3) := by
  refine ⟨?_, ?_, ?_⟩
  · intro s c t u s1 hrl hlt h
    have := (step_rl_rate s c t u s1 hrl h).1
    omega
  · intro s c t u s1 hrl h
    exact step_rl_rate s c t u s1 hrl h
  · intro u c1 c2 s s1 s2 s3 t1 t2 t3 hrl1 hrl2 h1 hsteps hle h2
    have hset : s1.core.lastActionTime u = t1 :=
      (step_rl_rate s c1 t1 u s1 hrl1 h1).2
    have hlow : t1 ≤ s2.core.lastActionTime u :=
      stepsFrom_lastAction_lower hsteps u t1 (le_of_eq hset.symm) (le_refl _)
    have hrate : s2.core.lastActionTime u + ACTION_COOLDOWN ≤ t3 :=
      (step_rl_rate s2 c2 t3 u s3 hrl2 h2).1
    omega

namespace TouchGrassPaymaster

lemma sponsorGas_ok (p : PayState) (caller user : Address) (gU gP : Nat)
    (p1 : PayState) (h : sponsorGas p caller user gU gP = .ok p1) :
    (caller = p.coreContract ∨ caller = p.nftContract) ∧
    p.hasReceivedSponsorship user = false ∧
    p.userSponsoredGas user < p.maxSponsorshipPerUser ∧
    p.maxSponsorshipPerUser ≤ p.balance ∧
    gU * gP ≤ p.maxSponsorshipPerUser ∧
    p1 = { p with
      hasReceivedSponsorship := upd p.hasReceivedSponsorship user true
      userSponsoredGas := upd p.userSponsoredGas user
        (p.userSponsoredGas user + gU * gP)
      totalSponsored := p.totalSponsored + gU * gP
      balance := p.balance - gU * gP } := by
  simp only [sponsorGas] at h
  split_ifs at h with h1 h2 h3 h4 h5 <;> try exact Except.noConfusion h
  simp only [isEligibleForSponsorship, Bool.and_eq_true, Bool.not_eq_true',
    decide_eq_true_eq, Bool.not_eq_false] at h2
  obtain ⟨⟨hrec, hlt⟩, hbal⟩ := h2
  injection h with h
  exact ⟨h1, hrec, hlt, hbal, by omega, h.symm⟩

lemma sponsorGas_sponsored_reverts (p : PayState) (caller user : Address)
    (gU gP : Nat) (hrec : p.hasReceivedSponsorship user = true) :
    (sponsorGas p caller user gU gP).isOk = false := by
  have helig : isEligibleForSponsorship p user = false := by
    simp [isEligibleForSponsorship, hrec]
  unfold sponsorGas
  split_ifs with h1 h2 h3 h4 h5 <;> first | rfl | exact absurd helig h2

lemma sponsorGas_received_mono (p : PayState) (caller user : Address)
    (gU gP : Nat) (p1 : PayState)
    (h : sponsorGas p caller user gU gP = .ok p1) (u : Address)
    (hu : p.hasReceivedSponsorship u = true) :
    p1.hasReceivedSponsorship u = true := by
  obtain ⟨-, -, -, -, -, hp1⟩ := sponsorGas_ok p caller user gU gP p1 h
  subst hp1
  show upd p.hasReceivedSponsorship user true u = true
  unfold upd
  by_cases huu : u = user <;> simp [huu, hu]

lemma payReach_inv (core nft : Address) (p : PayState)
    (h : PayReach core nft p) :
    (∀ u, p.hasReceivedSponsorship u = false → p.userSponsoredGas u = 0) ∧
    (∀ u, p.userSponsoredGas u ≤ p.maxSponsorshipPerUser) := by
  induction h with
  | init => exact ⟨fun u _ => rfl, fun u => Nat.zero_le _⟩
  | sponsor hreach hok ih =>
    rename_i p0 p1 caller user gU gP
    obtain ⟨-, hrec, -, -, hle, hp1⟩ :=
      sponsorGas_ok p0 caller user gU gP p1 hok
    subst hp1
    constructor
    · intro u hu
      show upd p0.userSponsoredGas user (p0.userSponsoredGas user + gU * gP) u = 0
      have hu2 : upd p0.hasReceivedSponsorship user true u = false := hu
      unfold upd at hu2 ⊢
      by_cases huu : u = user
      · simp [huu] at hu2
      · simp only [if_neg huu]
        simp only [if_neg huu] at hu2
        exact ih.1 u hu2
    · intro u
      show upd p0.userSponsoredGas user (p0.userSponsoredGas user + gU * gP) u ≤
        p0.maxSponsorshipPerUser
      unfold upd
      by_cases huu : u = user
      · rw [if_pos huu]
        have := ih.1 user hrec
        omega
      · rw [if_neg huu]
        exact ih.2 u
  | deposit amount hreach ih => exact ih
  | withdraw amount hreach hle ih => exact ih

end TouchGrassPaymaster

open TouchGrassPaymaster in
/-- C7: in every reachable paymaster state (owner leaving
maxSponsorshipPerUser unchanged) userSponsoredGas[user] never exceeds
maxSponsorshipPerUser; sponsorGas reverts unless the caller is the core or
NFT contract, the user was never sponsored before, and gasUsed*gasPrice ≤
maxSponsorshipPerUser; on success it marks the user sponsored, the mark is
never cleared by any operation, and a marked user's sponsorGas always
reverts — so every later sponsorGas call for the same user reverts. -/
theorem c7_paymaster_cap :
    (∀ (core nft : Address) (p : PayState), PayReach core nft p →
      ∀ u, p.userSponsoredGas u ≤ p.maxSponsorshipPerUser) ∧
    (∀ (p : PayState) (caller user : Address) (gU gP : Nat) (p1 : PayState),
      sponsorGas p caller user gU gP = .ok p1 →
      (caller = p.coreContract ∨ caller = p.nftContract) ∧
      p.hasReceivedSponsorship user = false ∧
      gU * gP ≤ p.maxSponsorshipPerUser ∧
      p1.hasReceivedSponsorship user = true) ∧
    (∀ (p : PayState) (caller user : Address) (gU gP : Nat) (p1 : PayState)
      (u : Address), sponsorGas p caller user gU gP = .ok p1 →
      p.hasReceivedSponsorship u = true → p1.hasReceivedSponsorship u = true) ∧
    (∀ (p : PayState) (caller user : Address) (gU gP : Nat),
      p.hasReceivedSponsorship user = true →
      (sponsorGas p caller user gU gP).isOk = false) := by
  refine ⟨?_, ?_, ?_, ?_⟩
  · intro core nft p h u
    exact (payReach_inv core nft p h).2 u
  · intro p caller user gU gP p1 h
    obtain ⟨hauth, hrec, -, -, hle, hp1⟩ := sponsorGas_ok p caller user gU gP p1 h
    refine ⟨hauth, hrec, hle, ?_⟩
    subst hp1
    exact upd_same _ _ _
  · intro p caller user gU gP p1 u h hu
    exact sponsorGas_received_mono p caller user gU gP p1 h u hu
  · intro p caller user gU gP hrec
    exact sponsorGas_sponsored_reverts p caller user gU gP hrec

namespace TouchGrassNFT

open TouchGrassCore

lemma calcLevel_fold (s : CoreState) (u : Address) (crew : List Address) :
    ∀ t c : Nat,
    crew.foldl (fun (p : Nat × Nat) m =>
      if m ≠ u then
        let level := getFriendshipLevel s u m
        if 0 < level then (p.1 + level, p.2 + 1) else p
      else p) (t, c) =
    (t + (((crew.filter (fun m => decide (m ≠ u))).map
        (getFriendshipLevel s u)).filter (fun l => decide (0 < l))).sum,
     c + (((crew.filter (fun m => decide (m ≠ u))).map
        (getFriendshipLevel s u)).filter (fun l => decide (0 < l))).length) := by
  induction crew with
  | nil => intro t c; simp
  | cons m rest ih =>
    intro t c
    by_cases hm : m ≠ u
    · by_cases hl : 0 < getFriendshipLevel s u m
      · simp_all [Prod.mk.injEq]
        all_goals omega
      · simp_all [Prod.mk.injEq]
        all_goals omega
    · have hmu : m = u := not_not.mp hm
      subst hmu
      simp_all [Prod.mk.injEq]

/-- The function _calculateFriendshipLevel computes the integer average of the positive
friendship levels with the other crew members, defaulting to 1. -/
lemma calcLevel_eq_levelAvg (s : CoreState) (u : Address)
    (crew : List Address) :
    calculateFriendshipLevel s u crew = levelAvgSpec s u crew := by
  unfold calculateFriendshipLevel levelAvgSpec
  rw [calcLevel_fold]
  simp

/-- Success postcondition of the NFT contract's mintMemoryNFT. -/
lemma nftMint_ok (core : CoreState) (n : NFTState) (toAddr : Address)
    (eventId : Nat) (ipfs : String) (crew : List Address) (now : Nat)
    (n1 : NFTState) (tid : Nat)
    (h : mintMemoryNFT core n toAddr eventId ipfs crew now = .ok (n1, tid)) :
    n.eventToUserToken eventId toAddr = 0 ∧ toAddr ≠ 0 ∧
    tid = n.tokenIds + 1 ∧
    n1 = { n with
      tokenIds := n.tokenIds + 1
      owners := upd n.owners (n.tokenIds + 1) toAddr
      memoryNFTs := upd n.memoryNFTs (n.tokenIds + 1)
        { eventId := eventId, crewMembers := crew, mintedAt := now,
          baseIPFSHash := ipfs,
          friendshipLevel := calculateFriendshipLevel core toAddr crew,
          isPublic := false }
      eventToUserToken := upd2 n.eventToUserToken eventId toAddr
        (n.tokenIds + 1)
      tokenURIs := upd n.tokenURIs (n.tokenIds + 1)
        (n.baseMetadataURI ++ Nat.repr (n.tokenIds + 1)) } := by
  simp only [mintMemoryNFT] at h
  split_ifs at h with h1 h2 h3 <;> try exact Except.noConfusion h
  simp only [Except.ok.injEq, Prod.mk.injEq] at h
  obtain ⟨hn1, htid⟩ := h
  subst htid
  subst hn1
  exact ⟨not_not.mp h1, h2, rfl, rfl⟩

end TouchGrassNFT

open TouchGrassCore TouchGrassNFT in
/-- C8 (amended): the friendship level stored on a minted memory NFT is the
integer-division average not of raw interaction counts but of the recipient's
1-5 friendship levels (each derived from the interaction count) with the
other crew members that have a positive level, defaulting to 1 when there is
none. -/
theorem c8_friendship_level_avg :
    (∀ (s : CoreState) (u : Address) (crew : List Address),
      calculateFriendshipLevel s u crew = levelAvgSpec s u crew) ∧
    (∀ (core : CoreState) (n : NFTState) (toAddr : Address) (eventId : Nat)
      (ipfs : String) (crew : List Address) (now : Nat) (n1 : NFTState)
      (tid : Nat),
      mintMemoryNFT core n toAddr eventId ipfs crew now = .ok (n1, tid) →
      (n1.memoryNFTs tid).friendshipLevel =
        calculateFriendshipLevel core toAddr crew ∧
      (n1.memoryNFTs tid).crewMembers = crew) := by
  refine ⟨fun s u crew => calcLevel_eq_levelAvg s u crew, ?_⟩
  intro core n toAddr eventId ipfs crew now n1 tid h
  obtain ⟨-, -, htid, hn1⟩ :=
    nftMint_ok core n toAddr eventId ipfs crew now n1 tid h
  subst htid
  subst hn1
  constructor
  · show (upd n.memoryNFTs (n.tokenIds + 1) _ (n.tokenIds + 1)).friendshipLevel = _
    rw [upd_same]
  · show (upd n.memoryNFTs (n.tokenIds + 1) _ (n.tokenIds + 1)).crewMembers = _
    rw [upd_same]

open TouchGrassCore TouchGrassNFT in
/-- C8 counterexample to the claim as stated: with one other crew member who
has 10 recorded interactions (mutual), the stored friendship level is 4 (the
1-5 level for 10 interactions), while the average of the recipient's
interaction counts with the other crew members is 10. -/
theorem c8_counterexample :
    calculateFriendshipLevel c8State 1 [1, 2] = 4 ∧
    avgInteractionCountSpec c8State 1 [1, 2] = 10 ∧ (4 : Nat) ≠ 10 :=
  ⟨rfl, rfl, by decide⟩

open TouchGrassCore TouchGrassNFT in
lemma coreMint_ok (s : CoreState) (n : NFTState) (sender : Address)
    (eventId : Nat) (now : Nat) (c1 : CoreState) (n1 : NFTState) (tid : Nat)
    (h : coreMintMemoryNFT s n sender eventId now = .ok (c1, n1, tid)) :
    TouchGrassNFT.mintMemoryNFT s n sender eventId (s.events eventId).ipfsHash
      (s.eventAttendees eventId) now = .ok (n1, tid) ∧
    c1 = { s with friendships :=
      bumpInteractions sender (s.eventAttendees eventId) s.friendships } := by
  unfold coreMintMemoryNFT at h
  split_ifs at h <;> try exact Except.noConfusion h
  revert h
  rcases hm : TouchGrassNFT.mintMemoryNFT s n sender eventId
      (s.events eventId).ipfsHash (s.eventAttendees eventId) now
    with e | r
  · intro h; exact Except.noConfusion h
  · intro h
    obtain ⟨nn, tk⟩ := r
    simp only [Except.ok.injEq, Prod.mk.injEq] at h
    obtain ⟨hc, hn, ht⟩ := h
    subst hc
    subst hn
    subst ht
    exact ⟨rfl, rfl⟩

open TouchGrassCore TouchGrassNFT in
/-- No successful suite call ever changes a non-zero eventToUserToken entry:
the per-(event, user) token ledger is write-once. -/
lemma step_token_mono (s : SuiteState) (c : Call) (t : Nat) (s1 : SuiteState)
    (h : stepCall s c t = .ok s1) (e : Nat) (u : Address)
    (hnz : s.nft.eventToUserToken e u ≠ 0) :
    s1.nft.eventToUserToken e u = s.nft.eventToUserToken e u := by
  cases c with
  | attestFriend sender friend =>
    revert h
    simp only [stepCall]
    rcases hf : TouchGrassCore.attestFriend s.core sender friend t with er | k
    · intro h; exact Except.noConfusion h
    · intro h; injection h with h; subst h; rfl
  | batchAttestFriends sender friends =>
    revert h
    simp only [stepCall]
    rcases hf : TouchGrassCore.batchAttestFriends s.core sender friends t
      with er | k
    · intro h; exact Except.noConfusion h
    · intro h; injection h with h; subst h; rfl
  | createEvent sender name location scheduledTime centerLat centerLng
      radiusMeters invitedFriends =>
    revert h
    simp only [stepCall]
    rcases hf : TouchGrassCore.createEvent s.core sender name location
        scheduledTime centerLat centerLng radiusMeters invitedFriends t
      with er | r
    · intro h; exact Except.noConfusion h
    · intro h
      obtain ⟨k, eid⟩ := r
      injection h with h; subst h; rfl
  | verifyLocationSimple sender eventId lat lng =>
    revert h
    simp only [stepCall]
    rcases hf : TouchGrassCore.verifyLocationSimple s.core sender eventId
        lat lng t with er | k
    · intro h; exact Except.noConfusion h
    · intro h; injection h with h; subst h; rfl
  | finalizeMemory sender eventId ipfs =>
    revert h
    simp only [stepCall]
    rcases hf : TouchGrassCore.finalizeMemory s.core sender eventId ipfs
      with er | k
    · intro h; exact Except.noConfusion h
    · intro h; injection h with h; subst h; rfl
  | mintMemoryNFT sender eventId =>
    revert h
    simp only [stepCall]
    rcases hf : TouchGrassCore.coreMintMemoryNFT s.core s.nft sender eventId t
      with er | r
    · intro h; exact Except.noConfusion h
    · intro h
      obtain ⟨k, n1, tid⟩ := r
      injection h with h
      subst h
      obtain ⟨hmint, -⟩ := coreMint_ok s.core s.nft sender eventId t k n1 tid hf
      obtain ⟨hz, -, -, hn1⟩ := nftMint_ok s.core s.nft sender eventId
        (s.core.events eventId).ipfsHash (s.core.eventAttendees eventId) t
        n1 tid hmint
      subst hn1
      show upd2 s.nft.eventToUserToken eventId sender (s.nft.tokenIds + 1) e u = _
      have hne : ¬(e = eventId ∧ u = sender) := by
        intro hp
        exact hnz (by rw [hp.1, hp.2]; exact hz)
      exact upd2_other _ _ _ _ _ _ hne
  | cancelEvent sender eventId =>
    revert h
    simp only [stepCall]
    rcases hf : TouchGrassCore.cancelEvent s.core sender eventId with er | k
    · intro h; exact Except.noConfusion h
    · intro h; injection h with h; subst h; rfl
  | removeFriend sender friend =>
    injection h with h; subst h; rfl
  | transferFrom caller fromAddr toAddr tokenId =>
    revert h
    simp only [stepCall]
    rcases hf : TouchGrassNFT.transferFrom s.nft caller fromAddr toAddr tokenId
      with er | n1
    · intro h; exact Except.noConfusion h
    · intro h
      injection h with h
      subst h
      unfold TouchGrassNFT.transferFrom at hf
      split_ifs at hf <;> try exact Except.noConfusion hf
      injection hf with hf
      subst hf
      rfl
  | makeMemoryPublic sender tokenId =>
    revert h
    simp only [stepCall]
    rcases hf : TouchGrassNFT.makeMemoryPublic s.nft sender tokenId with er | n1
    · intro h; exact Except.noConfusion h
    · intro h
      injection h with h
      subst h
      unfold TouchGrassNFT.makeMemoryPublic at hf
      split_ifs at hf <;> try exact Except.noConfusion hf
      injection hf with hf
      subst hf
      rfl
  | sponsorGas caller user gasUsed gasPrice =>
    revert h
    simp only [stepCall]
    rcases hf : TouchGrassPaymaster.sponsorGas s.pay caller user gasUsed
        gasPrice with er | p1
    · intro h; exact Except.noConfusion h
    · intro h; injection h with h; subst h; rfl

open TouchGrassCore TouchGrassNFT in
/-- C4 (amended): at most one memory NFT is ever minted per (event, user):
the NFT contract's mint reverts when eventToUserToken[event][user] is already
non-zero, on success it sets that entry to the fresh non-zero token id (so an
immediate second mint for the pair reverts), and no suite operation ever
changes a non-zero entry, so the revert persists forever.  (Ownership of more
than one token for an event can still arise through ERC-721 transfers.) -/
theorem c4_one_mint_per_user_event :
    (∀ (core : CoreState) (n : NFTState) (toAddr : Address) (eventId : Nat)
      (ipfs : String) (crew : List Address) (now : Nat),
      n.eventToUserToken eventId toAddr ≠ 0 →
      mintMemoryNFT core n toAddr eventId ipfs crew now =
        .error "User already has NFT for this event") ∧
    (∀ (core : CoreState) (n : NFTState) (toAddr : Address) (eventId : Nat)
      (ipfs : String) (crew : List Address) (now : Nat) (n1 : NFTState)
      (tid : Nat),
      mintMemoryNFT core n toAddr eventId ipfs crew now = .ok (n1, tid) →
      tid = n.tokenIds + 1 ∧ tid ≠ 0 ∧
      n1.eventToUserToken eventId toAddr = tid ∧
      ∀ (core2 : CoreState) (ipfs2 : String) (crew2 : List Address)
        (now2 : Nat),
        mintMemoryNFT core2 n1 toAddr eventId ipfs2 crew2 now2 =
          .error "User already has NFT for this event") ∧
    (∀ (s : SuiteState) (c : Call) (t : Nat) (s1 : SuiteState),
      stepCall s c t = .ok s1 → ∀ (e : Nat) (u : Address),
      s.nft.eventToUserToken e u ≠ 0 →
      s1.nft.eventToUserToken e u = s.nft.eventToUserToken e u) := by
  have hrev : ∀ (core : CoreState) (n : NFTState) (toAddr : Address)
      (eventId : Nat) (ipfs : String) (crew : List Address) (now : Nat),
      n.eventToUserToken eventId toAddr ≠ 0 →
      mintMemoryNFT core n toAddr eventId ipfs crew now =
        .error "User already has NFT for this event" := by
    intro core n toAddr eventId ipfs crew now hnz
    unfold mintMemoryNFT
    rw [if_pos hnz]
  refine ⟨hrev, ?_, ?_⟩
  · intro core n toAddr eventId ipfs crew now n1 tid h
    obtain ⟨-, -, htid, hn1⟩ :=
      nftMint_ok core n toAddr eventId ipfs crew now n1 tid h
    have htok : n1.eventToUserToken eventId toAddr = tid := by
      subst hn1
      subst htid
      exact upd2_same _ _ _ _
    refine ⟨htid, by omega, htok, ?_⟩
    intro core2 ipfs2 crew2 now2
    exact hrev core2 n1 toAddr eventId ipfs2 crew2 now2
      (by rw [htok]; omega)
  · intro s c t s1 h e u hnz
    exact step_token_mono s c t s1 h e u hnz

/-- C4 counterexample to the claim as stated ("the user owns at most one
memory NFT for that event in every reachable state"): after the nine
successful calls of the scenario, user 1 owns both token 1 and token 2, and
both are memory NFTs for event 1 — the second reached user 1 through an
inherited ERC-721 transfer, which eventToUserToken does not track. -/
theorem c4_counterexample :
    SuiteReach c4s9 1500 ∧
    c4s9.nft.owners 1 = 1 ∧ c4s9.nft.owners 2 = 1 ∧
    (c4s9.nft.memoryNFTs 1).eventId = 1 ∧
    (c4s9.nft.memoryNFTs 2).eventId = 1 ∧ (1 : Nat) ≠ 2 := by
  have r1 : StepsFrom suiteInit 0 c4s1 1000 :=
    .step (.refl _ _) (by omega)
      (show stepCall suiteInit (.attestFriend 1 2) 1000 = .ok c4s1 from rfl)
  have r2 : StepsFrom suiteInit 0 c4s2 1000 :=
    .step r1 (by omega)
      (show stepCall c4s1 (.attestFriend 2 1) 1000 = .ok c4s2 from rfl)
  have r3 : StepsFrom suiteInit 0 c4s3 1100 :=
    .step r2 (by omega)
      (show stepCall c4s2 (.createEvent 1 "party" "park" 10000 0 0 100 [2])
        1100 = .ok c4s3 from rfl)
  have r4 : StepsFrom suiteInit 0 c4s4 1200 :=
    .step r3 (by omega)
      (show stepCall c4s3 (.verifyLocationSimple 1 1 0 0) 1200 = .ok c4s4
        from rfl)
  have r5 : StepsFrom suiteInit 0 c4s5 1300 :=
    .step r4 (by omega)
      (show stepCall c4s4 (.verifyLocationSimple 2 1 0 0) 1300 = .ok c4s5
        from rfl)
  have r6 : StepsFrom suiteInit 0 c4s6 1300 :=
    .step r5 (by omega)
      (show stepCall c4s5 (.finalizeMemory 1 1 "ipfs-memory") 1300 = .ok c4s6
        from rfl)
  have r7 : StepsFrom suiteInit 0 c4s7 1400 :=
    .step r6 (by omega)
      (show stepCall c4s6 (.mintMemoryNFT 1 1) 1400 = .ok c4s7 from rfl)
  have r8 : StepsFrom suiteInit 0 c4s8 1400 :=
    .step r7 (by omega)
      (show stepCall c4s7 (.mintMemoryNFT 2 1) 1400 = .ok c4s8 from rfl)
  have r9 : StepsFrom suiteInit 0 c4s9 1500 :=
    .step r8 (by omega)
      (show stepCall c4s8 (.transferFrom 2 2 1 2) 1500 = .ok c4s9 from rfl)
  exact ⟨r9, rfl, rfl, rfl, rfl, by decide⟩

/-- C9: failure atomicity under Solidity's revert semantics, which the
Except embedding models: every call either returns the complete post-state
(all of its writes applied) or reverts, and the observable state after a
reverted call is exactly the pre-state. -/
theorem c9_atomicity (s : SuiteState) (c : Call) (t : Nat) :
    (∃ s1, stepCall s c t = .ok s1 ∧ execCall s c t = s1) ∨
    (∃ e, stepCall s c t = .error e ∧ execCall s c t = s) := by
  unfold execCall
  rcases h : stepCall s c t with e | s1
  · exact Or.inr ⟨e, rfl, rfl⟩
  · exact Or.inl ⟨s1, rfl, rfl⟩
